import Mathlib

/-!
Verification of the bank-marketing EDA script (`marketing.py`).

The script is a linear pipeline over one in-memory table:
load → inspect (conditional de-duplication) → clean (two column
recodings) → visualize (seven charts) → report (five insight lines).

We embed the table as a header together with rows of cells, where a cell
is a string, an exact rational number, or the missing marker (pandas NaN).
Each stage of the script becomes a pure Lean function on this table, and
the whole run becomes a function from the optional input file to a
process outcome.
-/

/-- A cell of the data table: a string, a number, or the missing marker
(pandas `NaN`). -/
inductive Value where
  | str : String → Value
  | num : ℚ → Value
  | na : Value
deriving DecidableEq

/-- The in-memory table: column names plus rows of cells
(`pd.DataFrame`). -/
structure DataFrame where
  header : List String
  rows : List (List Value)
deriving DecidableEq

/-- Index of a named column, `header.length` when the name is absent. -/
def DataFrame.colIdx (df : DataFrame) (c : String) : Nat :=
  df.header.indexOf c

/-- The cells of a named column, top to bottom (`df[c]`). -/
def DataFrame.col (df : DataFrame) (c : String) : List Value :=
  df.rows.map (fun r => r.getD (df.colIdx c) Value.na)

/-- Overwrite the cell at position `j` of a row with the image of its
old value. -/
def setCell (r : List Value) (j : Nat) (f : Value → Value) : List Value :=
  r.set j (f (r.getD j Value.na))

/-- Columnwise update `df[c] = df[c].apply(f)`: every row has its cell in
column `c` replaced by its image under `f`. -/
def DataFrame.mapColumn (df : DataFrame) (c : String) (f : Value → Value) :
    DataFrame :=
  ⟨df.header, df.rows.map (fun r => setCell r (df.colIdx c) f)⟩

/-- Well-formedness: every row has exactly one cell per header entry. -/
def WF (df : DataFrame) : Prop :=
  ∀ r ∈ df.rows, r.length = df.header.length

/- ### Cleaner (Part 3 of the script) -/

/-- `df['poutcome'].replace('nonexistent', 'no_previous_campaign')`:
exact-match scalar replacement, all other cells pass through. -/
def replaceNonexistent (v : Value) : Value :=
  if v = .str "nonexistent" then .str "no_previous_campaign" else v

/-- `df['y'].map({'yes': 1, 'no': 0})`: strict dictionary lookup with no
default, so any cell other than the strings `"yes"` and `"no"`
(numbers and the missing marker included) becomes missing. -/
def mapY (v : Value) : Value :=
  match v with
  | .str s => if s = "yes" then .num 1 else if s = "no" then .num 0 else .na
  | _ => .na

/-- The cleaning stage: recode `poutcome`, then recode `y`
(script lines 59 and 63). -/
def cleaner (df : DataFrame) : DataFrame :=
  (df.mapColumn "poutcome" replaceNonexistent).mapColumn "y" mapY

/- ### Inspector (Part 2 of the script) -/

/-- `df.duplicated()` with the default `keep='first'`: one flag per
element, `true` exactly when an *earlier* equal element exists.
`seen` accumulates the elements already passed. -/
def dupFlags {α : Type} [DecidableEq α] : List α → List α → List Bool
  | _, [] => []
  | seen, r :: rs => decide (r ∈ seen) :: dupFlags (r :: seen) rs

/-- `df.duplicated().sum()`: the number of rows equal to some earlier
row. -/
def dupCount {α : Type} [DecidableEq α] (rows : List α) : Nat :=
  (dupFlags [] rows).count true

/-- `drop_duplicates(keep='first')` core: keep an element when it has
not been seen before. -/
def dedupFirstAux {α : Type} [DecidableEq α] : List α → List α → List α
  | _, [] => []
  | seen, r :: rs =>
    if r ∈ seen then dedupFirstAux (r :: seen) rs
    else r :: dedupFirstAux (r :: seen) rs

/-- `df.drop_duplicates()`: remove every element equal to an earlier one,
keeping first occurrences in their original order. -/
def dedupFirst {α : Type} [DecidableEq α] (rows : List α) : List α :=
  dedupFirstAux [] rows

/-- The inspection stage's only mutation (script lines 50-53): when the
duplicate count is positive, drop the duplicate rows in place. -/
def inspector (df : DataFrame) : DataFrame :=
  if dupCount df.rows > 0 then ⟨df.header, dedupFirst df.rows⟩ else df

/- ### Visualizer (Parts 4 and 5 of the script) -/

/-- The numeric content of a cell, if any. -/
def toNum? (v : Value) : Option ℚ :=
  match v with
  | .num q => some q
  | _ => none

/-- The numeric entries of a column, in order (pandas drops `NaN` from
reductions such as `mean`). -/
def numsOf (vs : List Value) : List ℚ :=
  vs.filterMap toNum?

/-- A column has a numeric dtype when every cell is a number or missing
(a column of floats with `NaN` holes is still numeric for
`select_dtypes(include=np.number)`). -/
def isNumericCol (vs : List Value) : Bool :=
  vs.all fun v =>
    match v with
    | .num _ => true
    | .na => true
    | .str _ => false

/-- `df.select_dtypes(include=np.number).columns.tolist()`. -/
def numericalCols (df : DataFrame) : List String :=
  df.header.filter fun c => isNumericCol (df.col c)

/-- The data handed to the correlation heatmap: the numeric columns of
the table, in header order. -/
def heatData (df : DataFrame) : List (List Value) :=
  (numericalCols df).map fun c => df.col c

/-- Stable insertion of `v` before the first element of strictly smaller
count. -/
def insertByCount (cnt : Value → Nat) (v : Value) : List Value → List Value
  | [] => [v]
  | w :: ws =>
    if cnt w < cnt v then v :: w :: ws else w :: insertByCount cnt v ws

/-- Stable sort by descending count. -/
def sortByCountDesc (cnt : Value → Nat) : List Value → List Value
  | [] => []
  | v :: vs => insertByCount cnt v (sortByCountDesc cnt vs)

/-- `df[c].value_counts().index`: the distinct non-missing values of a
column, ordered by descending frequency. -/
def valueCountsIndex (vs : List Value) : List Value :=
  let vals := vs.filter fun v => v ≠ Value.na
  sortByCountDesc (fun v => vals.count v) (dedupFirst vals)

/-- One rendered chart: the constructor records which seaborn call is
made and every data/aesthetic argument the script passes to it. -/
inductive Chart where
  | countPlot (x : List Value) (figW figH : Nat) (title : String)
      (xticks : List String) (xlabel ylabel : String)
  | histogram (x : List Value) (kde : Bool) (bins : Nat)
      (figW figH : Nat) (title xlabel ylabel : String)
  | countPlotH (y : List Value) (ord : List Value) (figW figH : Nat)
      (title xlabel ylabel : String)
  | boxPlot (x y : List Value) (figW figH : Nat) (title : String)
      (xticks : List String) (xlabel ylabel : String)
  | countPlotHue (y hue : List Value) (ord : List Value)
      (figW figH : Nat) (title xlabel ylabel : String)
      (legendTitle : String) (legendLabels : List String)
  | heatmap (cols : List String) (data : List (List Value))
      (figW figH : Nat) (title : String)
deriving DecidableEq

/-- The seven charts of script lines 71-136, in program order.  Each is
a read-only rendering over the cleaned table. -/
def visualizer (df : DataFrame) : List Chart :=
  [Chart.countPlot (df.col "y") 8 6
      "Distribution of the Target Variable (Subscribed to Term Deposit)"
      ["No", "Yes"] "Subscription Status" "Count",
   Chart.histogram (df.col "age") true 30 10 6
      "Distribution of Age" "Age" "Frequency",
   Chart.countPlotH (df.col "job") (valueCountsIndex (df.col "job")) 12 8
      "Distribution of Job Categories" "Count" "Job",
   Chart.boxPlot (df.col "y") (df.col "age") 10 6
      "Age Distribution by Subscription Status" ["No", "Yes"]
      "Subscription Status" "Age",
   Chart.countPlotHue (df.col "job") (df.col "y")
      (valueCountsIndex (df.col "job")) 12 8
      "Subscription Status by Job Category" "Count" "Job"
      "Subscribed" ["No", "Yes"],
   Chart.heatmap (numericalCols df) (heatData df) 12 10
      "Correlation Heatmap of Numerical Features",
   Chart.boxPlot (df.col "y") (df.col "duration") 10 6
      "Call Duration by Subscription Status" ["No", "Yes"]
      "Subscription Status" "Duration (in seconds)"]

/-- The visualization stage threaded with the table it reads: it emits
the charts and passes the table through untouched. -/
def visualizerRun (df : DataFrame) : List Chart × DataFrame :=
  (visualizer df, df)

/- ### Pearson correlation (script lines 121-123) -/

/-- Pairwise-complete observations of two columns: the rows where both
cells are numeric (pandas `corr` drops a row for a pair exactly when
either entry is `NaN`). -/
def pcPairs (xs ys : List Value) : List (ℚ × ℚ) :=
  (xs.zip ys).filterMap fun p =>
    (toNum? p.1).bind fun a => (toNum? p.2).map fun b => (a, b)

/-- Mean of a list of rationals (`0` on the empty list, which the
correlation lemmas never rely on). -/
def lmean (l : List ℚ) : ℚ := l.sum / l.length

/-- Sum of products of deviations from the componentwise means. -/
def devSum (ps : List (ℚ × ℚ)) : ℚ :=
  (ps.map fun p =>
    (p.1 - lmean (ps.map Prod.fst)) * (p.2 - lmean (ps.map Prod.snd))).sum

/-- Sample covariance with pandas' `ddof=1` denominator. -/
def sampleCov (ps : List (ℚ × ℚ)) : ℚ :=
  devSum ps / ((ps.length : ℚ) - 1)

/-- Sample variance of the first components. -/
def fstVar (ps : List (ℚ × ℚ)) : ℚ :=
  sampleCov (ps.map fun p => (p.1, p.1))

/-- Sample variance of the second components. -/
def sndVar (ps : List (ℚ × ℚ)) : ℚ :=
  sampleCov (ps.map fun p => (p.2, p.2))

/-- Pearson correlation of two columns over their pairwise-complete
observations, as `DataFrame.corr` computes each matrix entry. -/
noncomputable def pearson (xs ys : List Value) : ℝ :=
  ((sampleCov (pcPairs xs ys) : ℚ) : ℝ) /
    Real.sqrt (((fstVar (pcPairs xs ys) : ℚ) : ℝ) *
      ((sndVar (pcPairs xs ys) : ℚ) : ℝ))

/-- The value `sns.heatmap(correlation_matrix, annot=True, fmt=".2f")`
annotates at cell `(i, j)`: entry `(i, j)` of the correlation matrix of
the numeric columns. -/
noncomputable def annotAt (df : DataFrame) (i j : Nat) : ℝ :=
  pearson ((heatData df).getD i []) ((heatData df).getD j [])

/- ### Reporter (Part 6 of the script) -/

/-- The run-aborting errors the script can raise but never catches. -/
inductive PyError where
  | keyError (k : ℚ)
deriving DecidableEq

/-- `df[c].value_counts()[k]`: `value_counts` drops missing cells and
counts each distinct value; indexing it with a key absent from its
index raises `KeyError`. -/
def valueCountsGet (vs : List Value) (k : ℚ) : Except PyError Nat :=
  if Value.num k ∈ vs then .ok (vs.count (Value.num k))
  else .error (.keyError k)

/-- Two-digit zero-padded rendering of a number below 100. -/
def twoPad (m : Nat) : String :=
  if m < 10 then "0" ++ toString m else toString m

/-- Fixed-point rendering of a rational with two decimal places, the
exact-arithmetic counterpart of Python's `:.2f` format (every value the
script formats in the claims is exact at two decimals, so the binary
floating-point detour changes nothing). -/
def fmt2 (q : ℚ) : String :=
  (if q < 0 then "-" else "") ++
    toString ((round (q * 100) : ℤ).natAbs / 100) ++ "." ++
    twoPad ((round (q * 100) : ℤ).natAbs % 100)

/-- `df[c].mean()`: the mean of the non-missing numeric cells, `none`
(pandas `NaN`) when there are none. -/
def seriesMean (vs : List Value) : Option ℚ :=
  match numsOf vs with
  | [] => none
  | l => some (l.sum / l.length)

/-- The percentage text interpolated into the first insight:
`df['y'].mean() * 100` under `:.2f`. -/
def pctString (vs : List Value) : String :=
  match seriesMean vs with
  | none => "nan"
  | some m => fmt2 (m * 100)

/-- The first insight line (script lines 141-142), parameterized by the
interpolated count and percentage. -/
def stmt1 (cnt : Nat) (pct : String) : String :=
  "1. A total of " ++ toString cnt ++
    " clients subscribed to the term deposit, which is about " ++ pct ++
    "% of the dataset."

/-- Second insight line (script line 143). -/
def insight2 : String :=
  "2. The average age of subscribed clients is slightly higher than non-subscribed clients."

/-- Third insight line (script line 144). -/
def insight3 : String :=
  "3. Job categories like 'student' and 'retired' have a higher subscription rate relative to their total numbers."

/-- Fourth insight line (script lines 145-146). -/
def insight4 : String :=
  "4. There's a strong positive correlation between 'euribor3m' and 'emp.var.rate', which suggests they are related economic indicators. This can be important for feature selection."

/-- Fifth insight line (script lines 147-149). -/
def insight5 : String :=
  "5. The 'duration' of the last contact is a highly predictive feature for the outcome. Clients with longer calls were much more likely to subscribe. However, this is for analysis only and should not be used in a predictive model as it's a look-ahead variable."

/-- The five printed insight statements. -/
def mkInsights (cnt : Nat) (pct : String) : List String :=
  [stmt1 cnt pct, insight2, insight3, insight4, insight5]

/-- The reporting stage: evaluating the first f-string looks up
`df['y'].value_counts()[1]`, which can raise; on success all five
statements are printed. -/
def reporter (df : DataFrame) : Except PyError (List String) :=
  match valueCountsGet (df.col "y") 1 with
  | .error e => .error e
  | .ok cnt => .ok (mkInsights cnt (pctString (df.col "y")))

/- ### The whole run (Loader through Reporter) -/

/-- First line printed by the missing-file handler (script line 21). -/
def errLine1 : String :=
  "Error: The 'bank-additional-full.csv' file was not found. Please download the dataset from the UCI Machine Learning Repository and place it in the same directory."

/-- Second line printed by the missing-file handler (script line 22). -/
def errLine2 : String :=
  "Link: https://archive.ics.uci.edu/ml/machine-learning-databases/00222/bank-additional.zip"

/-- How a whole run ends: the missing-file early termination, an abort
on an uncaught error after the charts were shown, or a normal
completion with charts and insight statements. -/
inductive Outcome where
  | missingFile (msgs : List String) (exitCode : Nat)
  | crashed (err : PyError) (charts : List Chart)
  | ok (charts : List Chart) (insights : List String)
deriving DecidableEq

/-- Process exit status of an outcome.  Python's bare `exit()` raises
`SystemExit(None)`, which the interpreter maps to status `0`; an
uncaught exception yields status `1`; normal completion yields `0`. -/
def exitCodeOf : Outcome → Nat
  | .missingFile _ c => c
  | .crashed _ _ => 1
  | .ok _ _ => 0

/-- The charts actually rendered before the run ended. -/
def chartsOf : Outcome → List Chart
  | .missingFile _ _ => []
  | .crashed _ cs => cs
  | .ok cs _ => cs

/-- The insight statements actually printed. -/
def insightsOf : Outcome → List String
  | .missingFile _ _ => []
  | .crashed _ _ => []
  | .ok _ ins => ins

/-- The table every stage after the Cleaner reads: inspection's
de-duplication followed by the two recodings, in script order. -/
def cleanedTable (df0 : DataFrame) : DataFrame :=
  cleaner (inspector df0)

/-- The whole script on an optional input file: absent file → print the
two diagnostic lines and `exit()` (status `0`) before any further work;
otherwise inspect, clean, render the seven charts, then report, where a
`KeyError` in the first f-string aborts with no insight printed. -/
def runScript (csv? : Option DataFrame) : Outcome :=
  match csv? with
  | none => .missingFile [errLine1, errLine2] 0
  | some df0 =>
    let df := cleanedTable df0
    match reporter df with
    | .error e => .crashed e (visualizer df)
    | .ok insights => .ok (visualizer df) insights

/- ### Concrete tables used to instantiate the theorems -/

/-- A minimal schema-matching table: two rows, one "yes" and one "no". -/
def dfMini : DataFrame :=
  ⟨["age", "job", "poutcome", "duration", "y"],
   [[.num 30, .str "student", .str "success", .num 100, .str "yes"],
    [.num 40, .str "admin.", .str "nonexistent", .num 200, .str "no"]]⟩

/-- A three-row table whose first two rows are exact duplicates. -/
def dfDup : DataFrame :=
  ⟨["age", "y"],
   [[.num 1, .str "no"], [.num 1, .str "no"], [.num 2, .str "yes"]]⟩

/-- A raw table whose only `y` label is "no". -/
def dfAllNo : DataFrame :=
  ⟨["y"], [[.str "no"], [.str "no"]]⟩

/-- A raw table with one "yes" row and one unrecognized `y` label. -/
def dfOdd : DataFrame :=
  ⟨["y"], [[.str "yes"], [.str "maybe"]]⟩

/-- An already-cleaned ten-row table with three positive targets. -/
def dfTen : DataFrame :=
  ⟨["y"],
   [[.num 1], [.num 1], [.num 1], [.num 0], [.num 0],
    [.num 0], [.num 0], [.num 0], [.num 0], [.num 0]]⟩

/-- An already-cleaned table with one positive, one negative, and one
missing target. -/
def dfMix : DataFrame :=
  ⟨["y"], [[.num 1], [.num 0], [.na]]⟩

/- ### De-duplication lemmas -/

theorem dedupFirstAux_filterMap {α : Type} [DecidableEq α]
    (seen rs : List α) :
    dedupFirstAux seen rs =
      (rs.zip (dupFlags seen rs)).filterMap
        (fun p => if p.2 = true then none else some p.1) := by
  induction rs generalizing seen with
  | nil => rfl
  | cons r rs ih =>
    by_cases h : r ∈ seen <;>
      simp [dedupFirstAux, dupFlags, h, List.filterMap_cons, ih]

theorem dedupFirstAux_length {α : Type} [DecidableEq α]
    (seen rs : List α) :
    (dedupFirstAux seen rs).length + (dupFlags seen rs).count true =
      rs.length := by
  induction rs generalizing seen with
  | nil => rfl
  | cons r rs ih =>
    have h := ih (r :: seen)
    by_cases hr : r ∈ seen <;>
      simp [dedupFirstAux, dupFlags, hr, List.count_cons] <;> omega

theorem dedupFirstAux_sublist {α : Type} [DecidableEq α]
    (seen rs : List α) : (dedupFirstAux seen rs).Sublist rs := by
  induction rs generalizing seen with
  | nil => exact List.Sublist.refl _
  | cons r rs ih =>
    by_cases h : r ∈ seen
    · simpa [dedupFirstAux, h] using (ih (r :: seen)).cons r
    · simpa [dedupFirstAux, h] using (ih (r :: seen)).cons₂ r

theorem dedupFirstAux_nodup {α : Type} [DecidableEq α]
    (seen rs : List α) :
    (∀ x ∈ dedupFirstAux seen rs, x ∉ seen) ∧
      (dedupFirstAux seen rs).Nodup := by
  induction rs generalizing seen with
  | nil => simp [dedupFirstAux]
  | cons r rs ih =>
    by_cases h : r ∈ seen
    · obtain ⟨hnotin, hnd⟩ := ih (r :: seen)
      refine ⟨?_, ?_⟩
      · intro x hx
        simp only [dedupFirstAux, if_pos h] at hx
        exact fun hxs => hnotin x hx (List.mem_cons_of_mem _ hxs)
      · simpa [dedupFirstAux, h] using hnd
    · obtain ⟨hnotin, hnd⟩ := ih (r :: seen)
      refine ⟨?_, ?_⟩
      · intro x hx
        simp only [dedupFirstAux, if_neg h, List.mem_cons] at hx
        rcases hx with rfl | hx
        · exact h
        · intro hxs
          exact hnotin x hx (List.mem_cons_of_mem _ hxs)
      · simp only [dedupFirstAux, if_neg h, List.nodup_cons]
        exact ⟨fun hr => hnotin r hr (List.mem_cons_self _ _), hnd⟩

theorem dedupFirstAux_mem {α : Type} [DecidableEq α]
    (seen rs : List α) :
    ∀ x ∈ rs, x ∈ seen ∨ x ∈ dedupFirstAux seen rs := by
  induction rs generalizing seen with
  | nil => simp
  | cons r rs ih =>
    intro x hx
    rcases List.mem_cons.mp hx with rfl | hx
    · by_cases h : x ∈ seen
      · exact Or.inl h
      · exact Or.inr (by simp [dedupFirstAux, h])
    · by_cases h : r ∈ seen
      · rcases ih (r :: seen) x hx with hs | hd
        · rcases List.mem_cons.mp hs with rfl | hs
          · exact Or.inl h
          · exact Or.inl hs
        · exact Or.inr (by simpa [dedupFirstAux, h] using hd)
      · rcases ih (r :: seen) x hx with hs | hd
        · rcases List.mem_cons.mp hs with rfl | hs
          · exact Or.inr (by simp [dedupFirstAux, h])
          · exact Or.inl hs
        · exact Or.inr (by simp [dedupFirstAux, h, hd])

theorem dupFlags_count_zero {α : Type} [DecidableEq α]
    (seen rs : List α)
    (h : (dupFlags seen rs).count true = 0) :
    dedupFirstAux seen rs = rs := by
  induction rs generalizing seen with
  | nil => rfl
  | cons r rs ih =>
    simp only [dupFlags, List.count_cons] at h
    by_cases hr : r ∈ seen
    · simp [hr] at h
    · simp only [dedupFirstAux, if_neg hr]
      have h0 : (dupFlags (r :: seen) rs).count true = 0 := by omega
      rw [ih _ h0]

/- ### Row/column access lemmas -/

theorem getD_set_lt (l : List Value) (j : Nat) (x : Value)
    (h : j < l.length) : (l.set j x).getD j .na = x := by
  induction l generalizing j with
  | nil => simp at h
  | cons a t ih =>
    cases j with
    | zero => rfl
    | succ k => exact ih k (by simpa using h)

theorem getD_set_ne (l : List Value) (i j : Nat) (x : Value)
    (h : i ≠ j) : (l.set j x).getD i .na = l.getD i .na := by
  induction l generalizing i j with
  | nil => simp [List.set]
  | cons a t ih =>
    cases j with
    | zero =>
      cases i with
      | zero => exact absurd rfl h
      | succ k => rfl
    | succ m =>
      cases i with
      | zero => rfl
      | succ k => exact ih k m (by omega)

theorem set_of_length_le (l : List Value) (j : Nat) (x : Value)
    (h : l.length ≤ j) : l.set j x = l := by
  induction l generalizing j with
  | nil => rfl
  | cons a t ih =>
    cases j with
    | zero => simp at h
    | succ m => simpa using ih m (by simpa using h)

theorem mapColumn_header (df : DataFrame) (c : String) (f : Value → Value) :
    (df.mapColumn c f).header = df.header := rfl

theorem mapColumn_wf (df : DataFrame) (c : String) (f : Value → Value)
    (hwf : WF df) : WF (df.mapColumn c f) := by
  intro r hr
  simp only [DataFrame.mapColumn, List.mem_map] at hr
  obtain ⟨r₀, hr₀, rfl⟩ := hr
  simpa [setCell] using hwf r₀ hr₀

/-- Updating column `c` rewrites exactly that column by `f`. -/
theorem col_mapColumn_self (df : DataFrame) (c : String) (f : Value → Value)
    (hwf : WF df) (hc : c ∈ df.header) :
    (df.mapColumn c f).col c = (df.col c).map f := by
  simp only [DataFrame.col, DataFrame.mapColumn, DataFrame.colIdx,
    List.map_map]
  refine List.map_congr_left ?_
  intro r hr
  have hlen : r.length = df.header.length := hwf r hr
  have hj : df.header.indexOf c < r.length := by
    rw [hlen]; exact List.indexOf_lt_length.mpr hc
  simp only [Function.comp_apply]
  exact getD_set_lt r _ _ hj

/-- Updating column `c` leaves any other column unchanged. -/
theorem col_mapColumn_ne (df : DataFrame) (c c' : String) (f : Value → Value)
    (hwf : WF df) (hne : c' ≠ c) :
    (df.mapColumn c f).col c' = df.col c' := by
  simp only [DataFrame.col, DataFrame.mapColumn, DataFrame.colIdx,
    List.map_map]
  refine List.map_congr_left ?_
  intro r hr
  have hlen : r.length = df.header.length := hwf r hr
  simp only [Function.comp_apply]
  by_cases hc : c ∈ df.header
  · have hj : df.header.indexOf c < r.length := by
      rw [hlen]; exact List.indexOf_lt_length.mpr hc
    have hij : df.header.indexOf c' ≠ df.header.indexOf c := by
      intro heq
      by_cases hc' : c' ∈ df.header
      · have h1 : df.header[df.header.indexOf c']? = some c' :=
          List.getElem?_indexOf hc'
        have h2 : df.header[df.header.indexOf c]? = some c :=
          List.getElem?_indexOf hc
        rw [heq, h2] at h1
        exact hne (Option.some.inj h1).symm
      · have h1 : df.header.indexOf c' = df.header.length :=
          List.indexOf_eq_length.mpr hc'
        have h2 : df.header.indexOf c < df.header.length :=
          List.indexOf_lt_length.mpr hc
        omega
    exact getD_set_ne r _ _ _ hij
  · have hj : r.length ≤ df.header.indexOf c := by
      rw [hlen]
      exact le_of_eq (List.indexOf_eq_length.mpr hc).symm
    rw [setCell, set_of_length_le r _ _ hj]

/- ### Claim theorems -/

/-- C3: The Inspector mutates the table only when exact duplicate rows
exist, and then removes rows that are identical across all columns
exactly once, keeping the first occurrence of each duplicate group and
preserving the relative order of the surviving rows; the resulting row
count equals the input row count minus the number of exact duplicate
rows. -/
theorem inspector_dedup (df : DataFrame) :
    (dupCount df.rows = 0 → inspector df = df)
    ∧ (inspector df).header = df.header
    ∧ (inspector df).rows =
        (df.rows.zip (dupFlags [] df.rows)).filterMap
          (fun p => if p.2 = true then none else some p.1)
    ∧ (inspector df).rows.length + dupCount df.rows = df.rows.length
    ∧ (inspector df).rows.Sublist df.rows
    ∧ (inspector df).rows.Nodup
    ∧ (∀ r ∈ df.rows, r ∈ (inspector df).rows) := by
  have hrows : (inspector df).rows = dedupFirst df.rows := by
    unfold inspector
    by_cases h : dupCount df.rows > 0
    · simp [h]
    · have h0 : dupCount df.rows = 0 := by omega
      simp only [h, if_false]
      exact (dupFlags_count_zero [] df.rows h0).symm
  refine ⟨?_, ?_, ?_, ?_, ?_, ?_, ?_⟩
  · intro h0
    unfold inspector
    simp [h0]
  · unfold inspector
    split <;> rfl
  · rw [hrows]
    exact dedupFirstAux_filterMap [] df.rows
  · rw [hrows]
    exact dedupFirstAux_length [] df.rows
  · rw [hrows]
    exact dedupFirstAux_sublist [] df.rows
  · rw [hrows]
    exact (dedupFirstAux_nodup [] df.rows).2
  · intro r hr
    rw [hrows]
    rcases dedupFirstAux_mem [] df.rows r hr with h | h
    · simp at h
    · exact h

/-- Witness for C3 at two concrete tables: a duplicate-free table passes
through unchanged, and the three-row table with one duplicate pair
shrinks to two rows. -/
theorem inspector_dedup_witness :
    inspector dfMini = dfMini
    ∧ (inspector dfDup).rows.length = 2
    ∧ dupCount dfDup.rows = 1 :=
  ⟨(inspector_dedup dfMini).1 (by decide), by decide, by decide⟩

/-- The `y` recoding of the Cleaner acts columnwise as `mapY` on the
original `y` column. -/
theorem cleaner_col_y (df : DataFrame) (hwf : WF df)
    (hy : "y" ∈ df.header) :
    (cleaner df).col "y" = (df.col "y").map mapY := by
  unfold cleaner
  rw [col_mapColumn_self _ _ _ (mapColumn_wf df _ _ hwf) hy,
    col_mapColumn_ne df _ _ _ hwf (by decide)]

/-- The `poutcome` recoding of the Cleaner acts columnwise as
`replaceNonexistent` on the original `poutcome` column. -/
theorem cleaner_col_poutcome (df : DataFrame) (hwf : WF df)
    (hp : "poutcome" ∈ df.header) :
    (cleaner df).col "poutcome" =
      (df.col "poutcome").map replaceNonexistent := by
  unfold cleaner
  rw [col_mapColumn_ne _ _ _ _ (mapColumn_wf df _ _ hwf) (by decide),
    col_mapColumn_self df _ _ hwf hp]

/-- C1: After the Cleaner runs, every value of column `y` equals 1 where
it was the string "yes", 0 where it was "no", and the missing marker for
any other original value; no value of `y` is ever the string "yes" or
"no" afterwards. -/
theorem cleaner_y_values (df : DataFrame) (hwf : WF df)
    (hy : "y" ∈ df.header) :
    (∀ i : Nat,
      ((cleaner df).col "y").getD i .na =
        (if (df.col "y").getD i .na = .str "yes" then .num 1
         else if (df.col "y").getD i .na = .str "no" then .num 0
         else .na))
    ∧ ∀ v ∈ (cleaner df).col "y", v ≠ .str "yes" ∧ v ≠ .str "no" := by
  have h1 := cleaner_col_y df hwf hy
  constructor
  · intro i
    rw [h1]
    show (List.map mapY (df.col "y")).getD i (mapY Value.na) = _
    rw [List.getD_map]
    generalize (df.col "y").getD i Value.na = v
    cases v with
    | str s =>
      by_cases hs : s = "yes"
      · simp [mapY, hs]
      · by_cases hn : s = "no" <;> simp [mapY, hs, hn]
    | num q => simp [mapY]
    | na => simp [mapY]
  · intro v hv
    rw [h1] at hv
    obtain ⟨u, _, rfl⟩ := List.mem_map.mp hv
    cases u with
    | str s =>
      simp only [mapY]
      split_ifs <;> simp
    | num q => simp [mapY]
    | na => simp [mapY]

/-- Witness for C1 at the two-row table: the "yes" cell becomes 1, the
"no" cell becomes 0, and no cleaned `y` cell is "yes" or "no". -/
theorem cleaner_y_values_witness :
    ((cleaner dfMini).col "y").getD 0 .na = .num 1
    ∧ ((cleaner dfMini).col "y").getD 1 .na = .num 0
    ∧ ∀ v ∈ (cleaner dfMini).col "y", v ≠ .str "yes" ∧ v ≠ .str "no" := by
  have h := cleaner_y_values dfMini (by unfold WF; decide) (by decide)
  exact ⟨(h.1 0).trans (by decide), (h.1 1).trans (by decide), h.2⟩

/-- C4: The Cleaner replaces every occurrence of the literal value
"nonexistent" in column `poutcome` with "no_previous_campaign" and
leaves every other value of `poutcome` unchanged; afterwards no value of
`poutcome` equals "nonexistent". -/
theorem cleaner_poutcome_values (df : DataFrame) (hwf : WF df)
    (hp : "poutcome" ∈ df.header) :
    (∀ i : Nat,
      ((cleaner df).col "poutcome").getD i .na =
        (if (df.col "poutcome").getD i .na = .str "nonexistent"
         then .str "no_previous_campaign"
         else (df.col "poutcome").getD i .na))
    ∧ ∀ v ∈ (cleaner df).col "poutcome", v ≠ .str "nonexistent" := by
  have h1 := cleaner_col_poutcome df hwf hp
  constructor
  · intro i
    rw [h1]
    show (List.map replaceNonexistent (df.col "poutcome")).getD i
        (replaceNonexistent Value.na) = _
    rw [List.getD_map]
    rfl
  · intro v hv
    rw [h1] at hv
    obtain ⟨u, _, rfl⟩ := List.mem_map.mp hv
    unfold replaceNonexistent
    split_ifs with h
    · simp
    · exact h

/-- Witness for C4 at the two-row table: the "nonexistent" cell is
renamed, the "success" cell passes through, and no cleaned `poutcome`
cell is "nonexistent". -/
theorem cleaner_poutcome_values_witness :
    ((cleaner dfMini).col "poutcome").getD 0 .na = .str "success"
    ∧ ((cleaner dfMini).col "poutcome").getD 1 .na =
        .str "no_previous_campaign"
    ∧ ∀ v ∈ (cleaner dfMini).col "poutcome", v ≠ .str "nonexistent" := by
  have h := cleaner_poutcome_values dfMini (by unfold WF; decide) (by decide)
  exact ⟨(h.1 0).trans (by decide), (h.1 1).trans (by decide), h.2⟩

/-- C5 counterexample: literally applying the `y`-mapping a second time
is not a no-op on a value that is already 1: the strict dictionary
lookup has no numeric keys, so it sends 1 (the image of "yes") to
missing. -/
theorem mapY_twice_not_noop_cex :
    mapY (.str "yes") = .num 1
    ∧ mapY (mapY (.str "yes")) = .na
    ∧ mapY (mapY (.str "yes")) ≠ mapY (.str "yes") := by decide

/-- C5 amended: one application of the `y`-mapping already puts every
value in its final form — each image is 1, 0, or missing, so an
already-cleaned column needs no further mapping — but literally applying
the mapping a second time is not a no-op: it sends every value
(0 and 1 included) to missing. -/
theorem mapY_once_final (v : Value) :
    (mapY v = .num 1 ∨ mapY v = .num 0 ∨ mapY v = .na)
    ∧ mapY (mapY v) = .na := by
  cases v with
  | str s =>
    by_cases h : s = "yes"
    · simp [mapY, h]
    · by_cases h2 : s = "no" <;> simp [mapY, h, h2]
  | num q => simp [mapY]
  | na => simp [mapY]

/-- C8: For every input table the Visualizer produces exactly 7 chart
artifacts in the fixed order — count plot of `y`, histogram of `age`,
count plot of `job`, box plot of `age` by `y`, grouped count plot of
`job` by `y`, correlation heatmap of the numeric columns, box plot of
`duration` by `y` — and passes the table through unmutated. -/
theorem visualizer_seven_charts (df : DataFrame) :
    (visualizerRun df).1 =
      [Chart.countPlot (df.col "y") 8 6
          "Distribution of the Target Variable (Subscribed to Term Deposit)"
          ["No", "Yes"] "Subscription Status" "Count",
       Chart.histogram (df.col "age") true 30 10 6
          "Distribution of Age" "Age" "Frequency",
       Chart.countPlotH (df.col "job") (valueCountsIndex (df.col "job"))
          12 8 "Distribution of Job Categories" "Count" "Job",
       Chart.boxPlot (df.col "y") (df.col "age") 10 6
          "Age Distribution by Subscription Status" ["No", "Yes"]
          "Subscription Status" "Age",
       Chart.countPlotHue (df.col "job") (df.col "y")
          (valueCountsIndex (df.col "job")) 12 8
          "Subscription Status by Job Category" "Count" "Job"
          "Subscribed" ["No", "Yes"],
       Chart.heatmap (numericalCols df) (heatData df) 12 10
          "Correlation Heatmap of Numerical Features",
       Chart.boxPlot (df.col "y") (df.col "duration") 10 6
          "Call Duration by Subscription Status" ["No", "Yes"]
          "Subscription Status" "Duration (in seconds)"]
    ∧ (visualizerRun df).1.length = 7
    ∧ (visualizerRun df).2 = df :=
  ⟨rfl, rfl, rfl⟩

/-- C2 counterexample: the missing-file termination runs through Python's
bare `exit()`, whose process status is 0 — the very status of a normal
completed run — so the exit is neither non-zero-ish nor distinguishable
from normal completion by exit code. -/
theorem loader_exit_code_cex :
    exitCodeOf (runScript none) = 0
    ∧ runScript (some dfMini) =
        .ok (visualizer (cleanedTable dfMini))
          (mkInsights 1 (pctString ((cleanedTable dfMini).col "y")))
    ∧ exitCodeOf (runScript (some dfMini)) = 0 := by
  refine ⟨rfl, ?_, ?_⟩ <;> rfl

/-- C2 amended: when the input file is absent, the Loader prints exactly
the two documented diagnostic lines (which carry the expected filename
and the download link) and terminates before any further work — no chart
is rendered and no insight printed, and the early termination is a
distinct outcome from every completed run — but the termination goes
through `exit()`, whose process status is 0, the same as normal
completion. -/
theorem loader_missing_file :
    runScript none = .missingFile [errLine1, errLine2] 0
    ∧ chartsOf (runScript none) = []
    ∧ insightsOf (runScript none) = []
    ∧ exitCodeOf (runScript none) = 0
    ∧ "bank-additional-full.csv".toList <:+: errLine1.toList
    ∧ "https://archive.ics.uci.edu/ml/machine-learning-databases/00222/bank-additional.zip".toList
        <:+: errLine2.toList
    ∧ ∀ df0 : DataFrame, runScript (some df0) ≠ runScript none := by
  refine ⟨rfl, rfl, rfl, rfl, by decide, by decide, ?_⟩
  intro df0
  cases h : reporter (cleanedTable df0) <;> simp [runScript, h]

/-- C9: If the cleaned table contains no row with `y == 1`, the lookup
`df['y'].value_counts()[1]` in the Reporter's first f-string raises an
uncaught `KeyError`, aborting the run (exit status 1) before any insight
statement is printed. -/
theorem reporter_keyerror_no_positive (df0 : DataFrame)
    (h : Value.num 1 ∉ (cleanedTable df0).col "y") :
    runScript (some df0) =
      .crashed (.keyError 1) (visualizer (cleanedTable df0))
    ∧ insightsOf (runScript (some df0)) = []
    ∧ exitCodeOf (runScript (some df0)) = 1 := by
  have hrep : reporter (cleanedTable df0) = .error (.keyError 1) := by
    unfold reporter valueCountsGet
    simp [h]
  refine ⟨?_, ?_, ?_⟩ <;> simp [runScript, hrep, insightsOf, exitCodeOf]

/-- Witness for C9: on the table whose only `y` label is "no", the run
crashes with `KeyError 1` after the charts and prints no insight. -/
theorem reporter_keyerror_no_positive_witness :
    runScript (some dfAllNo) =
      .crashed (.keyError 1) (visualizer (cleanedTable dfAllNo))
    ∧ insightsOf (runScript (some dfAllNo)) = []
    ∧ exitCodeOf (runScript (some dfAllNo)) = 1 :=
  reporter_keyerror_no_positive dfAllNo (by decide)


/- ### Reporter lemmas -/

theorem numsOf_cons_num (q : ℚ) (t : List Value) :
    numsOf (.num q :: t) = q :: numsOf t := rfl

theorem numsOf_cons_str (s : String) (t : List Value) :
    numsOf (.str s :: t) = numsOf t := rfl

theorem numsOf_cons_na (t : List Value) :
    numsOf (.na :: t) = numsOf t := rfl

/-- Counting a numeric cell in a column equals counting its rational
value among the numeric entries. -/
theorem count_num_numsOf (vs : List Value) (q : ℚ) :
    vs.count (.num q) = (numsOf vs).count q := by
  induction vs with
  | nil => rfl
  | cons v t ih =>
    cases v with
    | str s => rw [numsOf_cons_str]; simp [List.count_cons, ih]
    | na => rw [numsOf_cons_na]; simp [List.count_cons, ih]
    | num a =>
      by_cases h : q = a
      · subst h
        rw [numsOf_cons_num]
        simp [List.count_cons, ih]
      · rw [numsOf_cons_num]
        simp [List.count_cons, ih, h]

/-- Members of `numsOf` come from numeric cells. -/
theorem mem_numsOf {vs : List Value} {x : ℚ} (h : x ∈ numsOf vs) :
    Value.num x ∈ vs := by
  obtain ⟨v, hv, he⟩ := List.mem_filterMap.mp h
  cases v <;> simp [toNum?] at he
  subst he
  exact hv

/-- Numeric cells contribute their value to `numsOf`. -/
theorem numsOf_mem {vs : List Value} {x : ℚ} (h : Value.num x ∈ vs) :
    x ∈ numsOf vs :=
  List.mem_filterMap.mpr ⟨.num x, h, rfl⟩

/-- The sum of a 0/1-valued list is the number of its ones. -/
theorem sum_count_ones (l : List ℚ) (h : ∀ x ∈ l, x = 0 ∨ x = 1) :
    l.sum = (l.count 1 : ℚ) := by
  induction l with
  | nil => simp
  | cons a t ih =>
    have ht : ∀ x ∈ t, x = 0 ∨ x = 1 :=
      fun x hx => h x (List.mem_cons_of_mem _ hx)
    rcases h a (List.mem_cons_self _ _) with rfl | rfl
    · simp [List.count_cons, ih ht]
    · rw [List.sum_cons, ih ht, List.count_cons]
      norm_num
      ring

/-- `seriesMean` on a column with at least one numeric entry. -/
theorem seriesMean_eq (vs : List Value) (hne : numsOf vs ≠ []) :
    seriesMean vs =
      some ((numsOf vs).sum / ((numsOf vs).length : ℚ)) := by
  cases h : numsOf vs with
  | nil => exact absurd h hne
  | cons a t => simp [seriesMean, h]

/-- A column has as many cells as the table has rows. -/
theorem col_length (df : DataFrame) (c : String) :
    (df.col c).length = df.rows.length := by
  simp [DataFrame.col]

/-- On a 0/1/missing column with at least one 1, the interpolated
percentage is the count of ones over the count of numeric entries,
times 100, at two decimals. -/
theorem pctString_eq (vs : List Value)
    (hclean : ∀ v ∈ vs, v = .num 0 ∨ v = .num 1 ∨ v = .na)
    (h1 : Value.num 1 ∈ vs) :
    pctString vs =
      fmt2 ((vs.count (.num 1) : ℚ) / ((numsOf vs).length : ℚ) * 100) := by
  have hne : numsOf vs ≠ [] := by
    intro h
    have hm := numsOf_mem h1
    rw [h] at hm
    simp at hm
  have hmem : ∀ x ∈ numsOf vs, x = 0 ∨ x = 1 := by
    intro x hx
    rcases hclean _ (mem_numsOf hx) with h | h | h
    · exact Or.inl (by injection h)
    · exact Or.inr (by injection h)
    · exact absurd h (by simp)
  unfold pctString
  rw [seriesMean_eq vs hne]
  show fmt2 ((numsOf vs).sum / ((numsOf vs).length : ℚ) * 100) = _
  rw [sum_count_ones _ hmem, count_num_numsOf]

/-- On a 0/1/missing column the non-missing cells are exactly the
numeric ones. -/
theorem filter_ne_na_length (vs : List Value)
    (hclean : ∀ v ∈ vs, v = .num 0 ∨ v = .num 1 ∨ v = .na) :
    (vs.filter fun v => v ≠ Value.na).length = (numsOf vs).length := by
  induction vs with
  | nil => rfl
  | cons v t ih =>
    have ht : ∀ x ∈ t, x = .num 0 ∨ x = .num 1 ∨ x = .na :=
      fun x hx => hclean x (List.mem_cons_of_mem _ hx)
    have ihh := ih ht
    rcases hclean v (List.mem_cons_self _ _) with rfl | rfl | rfl
    · rw [List.filter_cons_of_pos (by simp), numsOf_cons_num]
      simpa using ihh
    · rw [List.filter_cons_of_pos (by simp), numsOf_cons_num]
      simpa using ihh
    · rw [List.filter_cons_of_neg (by simp), numsOf_cons_na]
      exact ihh

/-- A column with a missing cell has strictly fewer non-missing cells
than cells. -/
theorem filter_ne_na_lt (vs : List Value) (h : Value.na ∈ vs) :
    (vs.filter fun v => v ≠ Value.na).length < vs.length := by
  induction vs with
  | nil => simp at h
  | cons v t ih =>
    rcases List.mem_cons.mp h with rfl | hmem
    · have hle := List.length_filter_le
        (fun v => decide (v ≠ Value.na)) t
      rw [List.filter_cons_of_neg (by simp)]
      simp only [List.length_cons]
      omega
    · have hlt := ih hmem
      by_cases hv : v = Value.na
      · subst hv
        rw [List.filter_cons_of_neg (by simp)]
        simp only [List.length_cons]
        omega
      · rw [List.filter_cons_of_pos (by simp [hv])]
        simp only [List.length_cons]
        omega

/-- On a column of purely numeric cells, `numsOf` keeps every cell. -/
theorem numsOf_length_all_num (vs : List Value)
    (h : ∀ v ∈ vs, ∃ q : ℚ, v = .num q) :
    (numsOf vs).length = vs.length := by
  induction vs with
  | nil => rfl
  | cons v t ih =>
    have ht : ∀ x ∈ t, ∃ q : ℚ, x = .num q :=
      fun x hx => h x (List.mem_cons_of_mem _ hx)
    obtain ⟨q, rfl⟩ := h v (List.mem_cons_self _ _)
    rw [numsOf_cons_num]
    simp [ih ht]

/-- When the positive count lookup succeeds, the Reporter prints the
five statements with the looked-up count and the interpolated
percentage. -/
theorem reporter_ok (df : DataFrame)
    (h1 : Value.num 1 ∈ df.col "y") :
    reporter df =
      .ok (mkInsights ((df.col "y").count (.num 1))
        (pctString (df.col "y"))) := by
  unfold reporter valueCountsGet
  simp [h1]

/-- `fmt2` at a value whose two-decimal scaling is the natural number
`m`. -/
theorem fmt2_eval (q : ℚ) (m : ℕ) (h : q * 100 = ((m : ℤ) : ℚ))
    (hq : ¬ q < 0) :
    fmt2 q = toString (m / 100) ++ "." ++ twoPad (m % 100) := by
  unfold fmt2
  rw [if_neg hq, h, round_intCast]
  simp

theorem fmt2_50 : fmt2 ((1 : ℚ) / 2 * 100) = "50.00" := by
  rw [fmt2_eval _ 5000 (by norm_num) (by norm_num)]
  decide

theorem fmt2_30 : fmt2 ((3 : ℚ) / 10 * 100) = "30.00" := by
  rw [fmt2_eval _ 3000 (by norm_num) (by norm_num)]
  decide

/-- C6 counterexample: a cleaned two-row table whose second `y` cell is
missing (original label outside yes/no).  The Reporter's first statement
interpolates the percentage "100.00", while the percentage of positive
rows over all rows of the table is 50.00 — so the reported figure is not
the share over all rows. -/
theorem reporter_pct_over_all_rows_cex :
    (cleaner dfOdd).rows.length = 2
    ∧ (cleaner dfOdd).col "y" = [.num 1, .na]
    ∧ reporter (cleaner dfOdd) = .ok (mkInsights 1 "100.00")
    ∧ fmt2 ((1 : ℚ) / 2 * 100) = "50.00" := by
  refine ⟨by decide, by decide, ?_, fmt2_50⟩
  have h1 : Value.num 1 ∈ (cleaner dfOdd).col "y" := by decide
  have hcnt : ((cleaner dfOdd).col "y").count (.num 1) = 1 := by decide
  have hn : numsOf ((cleaner dfOdd).col "y") = [1] := by decide
  have hps : pctString ((cleaner dfOdd).col "y") = "100.00" := by
    unfold pctString
    rw [seriesMean_eq _ (by rw [hn]; simp), hn]
    show fmt2 (List.sum [(1 : ℚ)] / ((List.length [(1 : ℚ)] : ℚ)) * 100)
        = "100.00"
    rw [fmt2_eval _ 10000 (by norm_num) (by norm_num)]
    decide
  rw [reporter_ok _ h1, hcnt, hps]

/-- C6 amended: for every cleaned table in which no `y` value is
missing, the Reporter's first statement reports the count of rows with
`y == 1` and the percentage of such rows over all rows, formatted to two
decimals (when some `y` is missing the denominator is instead the number
of non-missing values, as the counterexample shows). -/
theorem reporter_first_statement (df : DataFrame)
    (hclean : ∀ v ∈ df.col "y", v = .num 0 ∨ v = .num 1 ∨ v = .na)
    (hna : Value.na ∉ df.col "y")
    (h1 : Value.num 1 ∈ df.col "y") :
    reporter df =
      .ok (mkInsights ((df.col "y").count (.num 1))
        (fmt2 (((df.col "y").count (.num 1) : ℚ) /
          (df.rows.length : ℚ) * 100))) := by
  have hall : ∀ v ∈ df.col "y", ∃ q : ℚ, v = .num q := by
    intro v hv
    rcases hclean v hv with rfl | rfl | rfl
    · exact ⟨0, rfl⟩
    · exact ⟨1, rfl⟩
    · exact absurd hv hna
  have hlen : ((numsOf (df.col "y")).length : ℚ) =
      (df.rows.length : ℚ) := by
    rw [numsOf_length_all_num _ hall, col_length]
  rw [reporter_ok df h1, pctString_eq _ hclean h1, hlen]

/-- Witness for amended C6: the ten-row table with three positive
targets reports the count 3 and the percentage "30.00". -/
theorem reporter_first_statement_witness :
    reporter dfTen =
      .ok (mkInsights ((dfTen.col "y").count (.num 1))
        (fmt2 (((dfTen.col "y").count (.num 1) : ℚ) /
          (dfTen.rows.length : ℚ) * 100)))
    ∧ (dfTen.col "y").count (.num 1) = 3
    ∧ dfTen.rows.length = 10
    ∧ fmt2 ((3 : ℚ) / 10 * 100) = "30.00" :=
  ⟨reporter_first_statement dfTen (by decide) (by decide) (by decide),
   by decide, by decide, fmt2_30⟩

/-- C10: The Reporter's percentage is the mean of the non-missing `y`
values times 100: its denominator is the number of rows with a
recognized (non-missing) `y` label, and whenever a missing `y` exists
that denominator is strictly smaller than the table's row count, so the
figure is not the share among all rows. -/
theorem reporter_pct_denominator (df : DataFrame)
    (hclean : ∀ v ∈ df.col "y", v = .num 0 ∨ v = .num 1 ∨ v = .na)
    (h1 : Value.num 1 ∈ df.col "y") :
    reporter df =
      .ok (mkInsights ((df.col "y").count (.num 1))
        (fmt2 (((df.col "y").count (.num 1) : ℚ) /
          ((((df.col "y").filter fun v => v ≠ Value.na).length : ℚ)) *
            100)))
    ∧ (Value.na ∈ df.col "y" →
        ((df.col "y").filter fun v => v ≠ Value.na).length <
          df.rows.length) := by
  constructor
  · have hlen : ((((df.col "y").filter fun v => v ≠ Value.na).length : ℚ))
        = ((numsOf (df.col "y")).length : ℚ) := by
      rw [filter_ne_na_length _ hclean]
    rw [reporter_ok df h1, pctString_eq _ hclean h1, hlen]
  · intro hna
    have hlt := filter_ne_na_lt (df.col "y") hna
    rwa [col_length] at hlt

/-- Witness for C10: on the cleaned column `[1, 0, missing]` the
Reporter reports 1 positive and "50.00" — the share among the two
recognized labels — although the table has 3 rows. -/
theorem reporter_pct_denominator_witness :
    reporter dfMix =
      .ok (mkInsights ((dfMix.col "y").count (.num 1))
        (fmt2 (((dfMix.col "y").count (.num 1) : ℚ) /
          ((((dfMix.col "y").filter fun v => v ≠ Value.na).length : ℚ)) *
            100)))
    ∧ ((dfMix.col "y").filter fun v => v ≠ Value.na).length <
        dfMix.rows.length
    ∧ (dfMix.col "y").count (.num 1) = 1
    ∧ ((dfMix.col "y").filter fun v => v ≠ Value.na).length = 2
    ∧ dfMix.rows.length = 3
    ∧ fmt2 ((1 : ℚ) / 2 * 100) = "50.00" :=
  ⟨(reporter_pct_denominator dfMix (by decide) (by decide)).1,
   (reporter_pct_denominator dfMix (by decide) (by decide)).2 (by decide),
   by decide, by decide, by decide, fmt2_50⟩

/- ### Pearson correlation lemmas -/

theorem pcPairs_symm (xs ys : List Value) :
    pcPairs ys xs = (pcPairs xs ys).map Prod.swap := by
  unfold pcPairs
  rw [← List.zip_swap xs ys, List.filterMap_map, List.map_filterMap]
  congr 1
  funext p
  obtain ⟨u, v⟩ := p
  cases hu : toNum? u <;> cases hv : toNum? v <;>
    simp [Function.comp, hu, hv]

theorem devSum_swap (ps : List (ℚ × ℚ)) :
    devSum (ps.map Prod.swap) = devSum ps := by
  unfold devSum
  have h1 : (ps.map Prod.swap).map Prod.fst = ps.map Prod.snd := by
    rw [List.map_map]; rfl
  have h2 : (ps.map Prod.swap).map Prod.snd = ps.map Prod.fst := by
    rw [List.map_map]; rfl
  rw [h1, h2, List.map_map]
  refine congrArg List.sum (List.map_congr_left ?_)
  intro p _
  obtain ⟨a, b⟩ := p
  simp only [Function.comp_apply, Prod.swap_prod_mk]
  ring

theorem sampleCov_swap (ps : List (ℚ × ℚ)) :
    sampleCov (ps.map Prod.swap) = sampleCov ps := by
  unfold sampleCov
  rw [devSum_swap, List.length_map]

theorem fstVar_swap (ps : List (ℚ × ℚ)) :
    fstVar (ps.map Prod.swap) = sndVar ps := by
  unfold fstVar sndVar
  rw [List.map_map]
  rfl

theorem sndVar_swap (ps : List (ℚ × ℚ)) :
    sndVar (ps.map Prod.swap) = fstVar ps := by
  unfold fstVar sndVar
  rw [List.map_map]
  rfl

/-- Every entry of the correlation matrix is symmetric in its two
columns. -/
theorem pearson_symm (xs ys : List Value) :
    pearson xs ys = pearson ys xs := by
  unfold pearson
  rw [pcPairs_symm xs ys, sampleCov_swap, fstVar_swap, sndVar_swap,
    mul_comm]

theorem pcPairs_self (xs : List Value) :
    pcPairs xs xs = (numsOf xs).map (fun a => (a, a)) := by
  induction xs with
  | nil => rfl
  | cons v t ih =>
    cases v with
    | num q =>
      show pcPairs (Value.num q :: t) (Value.num q :: t) = _
      unfold pcPairs at ih ⊢
      rw [List.zip_cons_cons, List.filterMap_cons, numsOf_cons_num,
        List.map_cons, ← ih]
      rfl
    | str s =>
      show pcPairs (Value.str s :: t) (Value.str s :: t) = _
      unfold pcPairs at ih ⊢
      rw [List.zip_cons_cons, List.filterMap_cons, numsOf_cons_str, ← ih]
      rfl
    | na =>
      show pcPairs (Value.na :: t) (Value.na :: t) = _
      unfold pcPairs at ih ⊢
      rw [List.zip_cons_cons, List.filterMap_cons, numsOf_cons_na, ← ih]
      rfl

theorem fstVar_diag (l : List ℚ) :
    fstVar (l.map fun a => (a, a)) = sampleCov (l.map fun a => (a, a)) := by
  unfold fstVar
  rw [List.map_map]
  rfl

theorem sndVar_diag (l : List ℚ) :
    sndVar (l.map fun a => (a, a)) = sampleCov (l.map fun a => (a, a)) := by
  unfold sndVar
  rw [List.map_map]
  rfl

theorem sampleCov_diag_nonneg (l : List ℚ) :
    0 ≤ sampleCov (l.map fun a => (a, a)) := by
  have hD1 : (l.map fun a => (a, a)).map Prod.fst = l := by
    rw [List.map_map]
    exact List.map_id l
  have hD2 : (l.map fun a => (a, a)).map Prod.snd = l := by
    rw [List.map_map]
    exact List.map_id l
  have hsum : 0 ≤ devSum (l.map fun a => (a, a)) := by
    unfold devSum
    rw [hD1, hD2]
    apply List.sum_nonneg
    intro x hx
    obtain ⟨p, hp, rfl⟩ := List.mem_map.mp hx
    obtain ⟨a, _, rfl⟩ := List.mem_map.mp hp
    exact mul_self_nonneg _
  unfold sampleCov
  cases l with
  | nil => simp [devSum]
  | cons a t =>
    apply div_nonneg hsum
    simp only [List.length_map, List.length_cons]
    push_cast
    linarith

/-- Every diagonal entry of the correlation matrix over a column of
nonzero sample variance equals 1. -/
theorem pearson_self (xs : List Value)
    (h : sampleCov (pcPairs xs xs) ≠ 0) :
    pearson xs xs = 1 := by
  unfold pearson
  rw [pcPairs_self] at h ⊢
  rw [fstVar_diag, sndVar_diag]
  have hc0 : (0 : ℚ) ≤ sampleCov ((numsOf xs).map fun a => (a, a)) :=
    sampleCov_diag_nonneg _
  have hcr : (0 : ℝ) ≤
      ((sampleCov ((numsOf xs).map fun a => (a, a)) : ℚ) : ℝ) := by
    exact_mod_cast hc0
  rw [Real.sqrt_mul_self hcr]
  have hne : ((sampleCov ((numsOf xs).map fun a => (a, a)) : ℚ) : ℝ) ≠ 0 := by
    exact_mod_cast h
  exact div_self hne

/-- C7: The values annotated on the correlation heatmap equal the
Pearson correlation matrix of the numeric-column subset of the table:
the matrix is symmetric, and every diagonal entry over a column of
nonzero sample variance equals 1 (hence 1.00 at two decimals). -/
theorem heatmap_pearson (df : DataFrame) :
    (visualizer df)[5]? =
      some (Chart.heatmap (numericalCols df) (heatData df) 12 10
        "Correlation Heatmap of Numerical Features")
    ∧ (∀ i j : Nat, annotAt df i j =
        pearson ((heatData df).getD i []) ((heatData df).getD j []))
    ∧ (∀ i j : Nat, annotAt df i j = annotAt df j i)
    ∧ (∀ i : Nat,
        sampleCov (pcPairs ((heatData df).getD i [])
          ((heatData df).getD i [])) ≠ 0 →
        annotAt df i i = 1) :=
  ⟨rfl, fun _ _ => rfl, fun _ _ => pearson_symm _ _,
   fun _ h => pearson_self _ h⟩

/-- Witness for C7: on the two-row table, the first numeric column is
`age = [30, 40]` with sample variance 50, so the diagonal annotation is
exactly 1, and the off-diagonal annotations are symmetric. -/
theorem heatmap_pearson_witness :
    annotAt dfMini 0 0 = 1 ∧ annotAt dfMini 0 1 = annotAt dfMini 1 0 := by
  have hx : (heatData dfMini).getD 0 [] = [Value.num 30, Value.num 40] := by
    decide
  have hp : pcPairs [Value.num 30, Value.num 40]
      [Value.num 30, Value.num 40] =
      [((30 : ℚ), (30 : ℚ)), ((40 : ℚ), (40 : ℚ))] := by decide
  have hc : sampleCov [((30 : ℚ), (30 : ℚ)), ((40 : ℚ), (40 : ℚ))] = 50 := by
    unfold sampleCov devSum lmean
    norm_num
  have hne : sampleCov (pcPairs ((heatData dfMini).getD 0 [])
      ((heatData dfMini).getD 0 [])) ≠ 0 := by
    rw [hx, hp, hc]
    norm_num
  exact ⟨(heatmap_pearson dfMini).2.2.2 0 hne,
    (heatmap_pearson dfMini).2.2.1 0 1⟩
